import Mathlib

/-!
Shallow embedding of the car-marketplace application
(`src/car_marketplace/app.py`).

The persistent store (two tables: `user`, `car`) is modelled as two lists of
records.  Each Flask route handler that mutates the store is modelled as a
function from the store (plus the request data) to a pair
`Option Err × Store`: `(none, s')` means the handler committed the new store
`s'`, `(some e, s)` means the handler ended with outcome `e` and the store is
unchanged.  Read-only handlers return `Except Err` of their rendered data.

External ingredients are explicit parameters:
  * Python's `hash` builtin is a parameter `hash : String → Int`;
  * `random.randint` draws are parameters with range hypotheses;
  * `werkzeug.security.generate_password_hash` is a parameter
    `genHash : String → String → String` taking a salt and the password;
  * `werkzeug.security.check_password_hash` is a parameter
    `checkHash : String → String → Bool` taking the stored hash and the
    candidate password;
  * `datetime.now().year` is a parameter `currentYear : Int`.

Machine details: Python `int(str)` / `float(str)` conversions are modelled by
`parseInt?` / `parseFloat?` returning `Option` (`none` models a raised
`ValueError`); SQL `ilike` is modelled by `likeMatch`, case-insensitive SQL
`LIKE`-pattern matching with the wildcards `%` and `_`; prices (`db.Float`)
are modelled as rationals.
-/

namespace CarMarketplace

/-- Outcomes of a request handler other than plain success.
`duplicateHandle`, `invalidCredentials`, `notFound`, `forbidden` and
`invalidInput` are the surfaced error kinds of the spec (flash message or
HTTP 404); `valueError` models an exception raised by a failed `int()` /
`float()` conversion that no handler catches (an unhandled HTTP 500, not a
surfaced message). -/
inductive Err where
  | duplicateHandle
  | invalidCredentials
  | notFound
  | forbidden
  | invalidInput
  | valueError
deriving DecidableEq, Repr

/-- Row of the `user` table (`class User`). -/
structure User where
  id : Nat
  username : String
  password_hash : String
  whatsapp_number : String
deriving DecidableEq, Repr

/-- Row of the `car` table (`class Car`). -/
structure Car where
  id : Nat
  make : String
  model : String
  year : Int
  mileage : Int
  price : ℚ
  description : String
  image_url : String
  whatsapp_number : String
  is_sold : Bool
  user_id : Nat
deriving DecidableEq, Repr

/-- The persistent store: the two tables. -/
structure Store where
  users : List User
  cars : List Car
deriving DecidableEq, Repr

/-- The text fields submitted on the add/edit car form. -/
structure CarForm where
  make : String
  model : String
  year : String
  mileage : String
  price : String
  description : String
  image_url : String
  whatsapp_number : String
deriving DecidableEq, Repr

/-- Accumulating decimal-digit reader: fails on any non-digit. -/
def parseNatAux : List Char → Nat → Option Nat
  | [], acc => some acc
  | c :: t, acc =>
    if c.isDigit then parseNatAux t (acc * 10 + (c.toNat - 48)) else none

/-- A nonempty all-digit character list as a natural number. -/
def parseNatList : List Char → Option Nat
  | [] => none
  | c :: t => parseNatAux (c :: t) 0

/-- Model of Python `int(s)` on decimal integer literals with optional sign:
`none` models a raised `ValueError`. -/
def parseInt? (s : String) : Option Int :=
  match s.toList with
  | '-' :: rest => (parseNatList rest).map (fun n => -(n : Int))
  | l => (parseNatList l).map (fun n => (n : Int))

/-- Split a character list at every occurrence of `.` . -/
def splitDot : List Char → List (List Char)
  | [] => [[]]
  | c :: t =>
    if c = '.' then [] :: splitDot t
    else
      match splitDot t with
      | [] => [[c]]
      | h :: rest => (c :: h) :: rest

/-- Nonnegative decimal literal `digits` or `digits.digits`, as a
rational. -/
def parseDecNN (l : List Char) : Option ℚ :=
  match splitDot l with
  | [w] => (parseNatList w).map (fun n => (n : ℚ))
  | [w, f] =>
    match parseNatList w, parseNatList f with
    | some n, some fr => some ((n : ℚ) + (fr : ℚ) / ((10 : ℚ)) ^ f.length)
    | _, _ => none
  | _ => none

/-- Model of Python `float(s)` on decimal literals with optional sign, as a
rational: `none` models a raised `ValueError`. -/
def parseFloat? (s : String) : Option ℚ :=
  match s.toList with
  | '-' :: rest => (parseDecNN rest).map (fun q => -q)
  | l => parseDecNN l

/-- All suffixes of a character list, longest first. -/
def sufs : List Char → List (List Char)
  | [] => [[]]
  | c :: t => (c :: t) :: sufs t

/-- Case-insensitive SQL `LIKE` pattern matching (the semantics of
SQLAlchemy's `ilike`): `%` matches any sequence of characters (some suffix
of the subject continues the match), `_` matches exactly one character, any
other pattern character matches itself up to case. -/
def likeMatch : List Char → List Char → Bool
  | [], s => s.isEmpty
  | q :: ps, s =>
    if q = '%' then (sufs s).any (fun t => likeMatch ps t)
    else
      match s with
      | [] => false
      | c :: t => (q = '_' || c.toLower = q.toLower) && likeMatch ps t

/-- The `ilike(f"%{v}%")` pattern built by `browse_cars`. -/
def likePat (v : String) : List Char :=
  '%' :: v.toList ++ ['%']

/-- `Car.query.get(cid)`: the row of the `car` table with primary key
`cid` (first match in the list model). -/
def findCar? (s : Store) (cid : Nat) : Option Car :=
  s.cars.find? (fun c => c.id = cid)

/-- `User.query.filter_by(username=un).first()`. -/
def findUser? (s : Store) (un : String) : Option User :=
  s.users.find? (fun u => u.username = un)

/-- Replace the first row whose primary key is `cid` by `c'` (the effect of
mutating the ORM object returned by `get` and committing). -/
def setCar (cars : List Car) (cid : Nat) (c' : Car) : List Car :=
  match cars with
  | [] => []
  | c :: rest => if c.id = cid then c' :: rest else c :: setCar rest cid c'

/-- Largest primary key present in the `car` table. -/
def maxCarId (cars : List Car) : Nat :=
  cars.foldr (fun c m => max c.id m) 0

/-- Autoincrement primary key for a newly inserted car row. -/
def nextCarId (s : Store) : Nat :=
  maxCarId s.cars + 1

/-- Largest primary key present in the `user` table. -/
def maxUserId (users : List User) : Nat :=
  users.foldr (fun u m => max u.id m) 0

/-- Autoincrement primary key for a newly inserted user row. -/
def nextUserId (s : Store) : Nat :=
  maxUserId s.users + 1

/-- `signup` (POST): duplicate username flashes an error and inserts
nothing; otherwise a user row storing `generate_password_hash(password)`
(modelled `genHash salt password`) and the contact number is inserted. -/
def signup (s : Store) (genHash : String → String → String) (salt : String)
    (username password whatsapp : String) : Option Err × Store :=
  match findUser? s username with
  | some _ => (some .duplicateHandle, s)
  | none =>
    (none,
      { s with
        users := s.users ++
          [{ id := nextUserId s
             username := username
             password_hash := genHash salt password
             whatsapp_number := whatsapp }] })

/-- `login` (POST): succeeds, returning the session identity (the user id),
iff the username resolves to a user whose stored hash checks against the
password; otherwise flashes the invalid-credentials message. -/
def login (s : Store) (checkHash : String → String → Bool)
    (username password : String) : Except Err Nat :=
  match findUser? s username with
  | none => .error .invalidCredentials
  | some u =>
    if checkHash u.password_hash password then .ok u.id
    else .error .invalidCredentials

/-- `add_car` (POST), requester `req` logged in: parses year, mileage and
price and inserts a new car row owned by `req`, `is_sold` defaulting to
`false`; a failed conversion raises (`valueError`) and nothing is
inserted. -/
def add_car (s : Store) (req : Nat) (f : CarForm) : Option Err × Store :=
  match parseInt? f.year, parseInt? f.mileage, parseFloat? f.price with
  | some y, some m, some p =>
    (none,
      { s with
        cars := s.cars ++
          [{ id := nextCarId s
             make := f.make
             model := f.model
             year := y
             mileage := m
             price := p
             description := f.description
             image_url := f.image_url
             whatsapp_number := f.whatsapp_number
             is_sold := false
             user_id := req }] })
  | _, _, _ => (some .valueError, s)

/-- `edit_car` (POST): 404 if the id is absent, forbidden if the requester
does not own the row, otherwise overwrites the mutable fields (a failed
numeric conversion raises and nothing is committed). -/
def edit_car (s : Store) (req cid : Nat) (f : CarForm) : Option Err × Store :=
  match findCar? s cid with
  | none => (some .notFound, s)
  | some car =>
    if car.user_id ≠ req then (some .forbidden, s)
    else
      match parseInt? f.year, parseInt? f.mileage, parseFloat? f.price with
      | some y, some m, some p =>
        (none,
          { s with
            cars := setCar s.cars cid
              { car with
                make := f.make
                model := f.model
                year := y
                mileage := m
                price := p
                description := f.description
                image_url := f.image_url
                whatsapp_number := f.whatsapp_number } })
      | _, _, _ => (some .valueError, s)

/-- `delete_car` (POST): 404 if the id is absent, forbidden if the requester
does not own the row, otherwise removes the row permanently. -/
def delete_car (s : Store) (req cid : Nat) : Option Err × Store :=
  match findCar? s cid with
  | none => (some .notFound, s)
  | some car =>
    if car.user_id ≠ req then (some .forbidden, s)
    else (none, { s with cars := s.cars.eraseP (fun c => c.id = cid) })

/-- `mark_sold` (GET): 404 if the id is absent, forbidden if the requester
does not own the row, otherwise flips the `is_sold` flag of that row. -/
def mark_sold (s : Store) (req cid : Nat) : Option Err × Store :=
  match findCar? s cid with
  | none => (some .notFound, s)
  | some car =>
    if car.user_id ≠ req then (some .forbidden, s)
    else (none, { s with cars := setCar s.cars cid { car with is_sold := !car.is_sold } })

/-- The `order_by(Car.id.desc())` ordering of `browse_cars`: newest
(largest id) first. -/
def newestLe (a b : Car) : Prop :=
  b.id ≤ a.id

instance : DecidableRel newestLe :=
  fun a b => show Decidable (b.id ≤ a.id) from inferInstance

instance : IsTotal Car newestLe :=
  ⟨fun a b => (Nat.le_total b.id a.id).imp id id⟩

instance : IsTrans Car newestLe :=
  ⟨fun _ _ _ h h' => Nat.le_trans h' h⟩

/-- The `order_by(Car.is_sold, Car.id.desc())` ordering of `dashboard` and
`dealer_page`: unsold rows first (`false < true`), then newest first. -/
def dashLe (a b : Car) : Prop :=
  (a.is_sold = false ∧ b.is_sold = true) ∨ (a.is_sold = b.is_sold ∧ b.id ≤ a.id)

instance : DecidableRel dashLe :=
  fun a b =>
    show Decidable ((a.is_sold = false ∧ b.is_sold = true) ∨
        (a.is_sold = b.is_sold ∧ b.id ≤ a.id)) from inferInstance

instance : IsTotal Car dashLe := by
  constructor
  intro a b
  unfold dashLe
  cases ha : a.is_sold <;> cases hb : b.is_sold <;>
    rcases Nat.le_total b.id a.id with h | h <;> simp [h]

instance : IsTrans Car dashLe := by
  constructor
  intro a b c hab hbc
  unfold dashLe at *
  rcases hab with ⟨h1, h2⟩ | ⟨h1, h2⟩ <;> rcases hbc with ⟨h3, h4⟩ | ⟨h3, h4⟩
  · simp_all
  · exact Or.inl ⟨h1, h3 ▸ h2⟩
  · exact Or.inl ⟨h1 ▸ h3, h4⟩
  · exact Or.inr ⟨h1.trans h3, Nat.le_trans h4 h2⟩

/-- `dashboard`: the logged-in dealer's own listings, active rows first,
newest first within each group. -/
def dashboard (s : Store) (uid : Nat) : List Car :=
  List.insertionSort dashLe (s.cars.filter (fun c => c.user_id = uid))

/-- `dealer_page`: resolves the handle (404 when unknown) and lists that
dealer's listings with the `dashboard` ordering. -/
def dealer_page (s : Store) (username : String) : Except Err (List Car) :=
  match findUser? s username with
  | none => .error .notFound
  | some d => .ok (List.insertionSort dashLe (s.cars.filter (fun c => c.user_id = d.id)))

/-- The optional query arguments of `/browse`.  `none` models an absent
argument; Python treats an empty string as absent too (`if
request.args.get(...)`). -/
structure BrowseQuery where
  make : Option String
  model : Option String
  year : Option String
  max_price : Option String
deriving DecidableEq, Repr

/-- The `make` filter stage of `browse_cars`. -/
def applyMake (l : List Car) (o : Option String) : List Car :=
  match o with
  | none => l
  | some v =>
    if v.isEmpty then l
    else l.filter (fun c => likeMatch (likePat v) c.make.toList)

/-- The `model` filter stage of `browse_cars`. -/
def applyModel (l : List Car) (o : Option String) : List Car :=
  match o with
  | none => l
  | some v =>
    if v.isEmpty then l
    else l.filter (fun c => likeMatch (likePat v) c.model.toList)

/-- The `year` filter stage of `browse_cars`; `int()` may raise. -/
def applyYear (l : List Car) (o : Option String) : Except Err (List Car) :=
  match o with
  | none => .ok l
  | some v =>
    if v.isEmpty then .ok l
    else
      match parseInt? v with
      | some y => .ok (l.filter (fun c => c.year = y))
      | none => .error .valueError

/-- The `max_price` filter stage of `browse_cars`; `float()` may raise. -/
def applyPrice (l : List Car) (o : Option String) : Except Err (List Car) :=
  match o with
  | none => .ok l
  | some v =>
    if v.isEmpty then .ok l
    else
      match parseFloat? v with
      | some p => .ok (l.filter (fun c => c.price ≤ p))
      | none => .error .valueError

/-- `browse_cars`: active listings only, the four optional filter stages
applied in source order, result ordered newest first. -/
def browse_cars (s : Store) (q : BrowseQuery) : Except Err (List Car) :=
  match applyYear (applyModel (applyMake
      (s.cars.filter (fun c => c.is_sold = false)) q.make) q.model) q.year with
  | .error e => .error e
  | .ok l3 =>
    match applyPrice l3 q.max_price with
    | .error e => .error e
    | .ok l4 => .ok (List.insertionSort newestLe l4)

/-- `car_detail`: a single listing regardless of sold state, or 404. -/
def car_detail (s : Store) (cid : Nat) : Except Err Car :=
  match findCar? s cid with
  | none => .error .notFound
  | some car => .ok car

/-- `suggest_price` (POST), with Python's `hash`, the current year and the
two `random.randint` draws (`r1` from `randint(0, 2000)`, `r2` from
`randint(0, 1000)`) as explicit parameters.  Python `%` on a positive
modulus agrees with `Int.emod`. -/
def suggest_price (hash : String → Int) (currentYear : Int)
    (make model : String) (year : Int) (r1 r2 : Int) : Int :=
  let base_price : Int := 30000 + (hash make.toLower % 5000 + hash model.toLower % 5000)
  let age := currentYear - year
  let depreciation := age * 1500
  let suggested_price := base_price - depreciation - r1
  if suggested_price < 1500 then 1500 + r2 else suggested_price

/-- The spec's five numbered Estimator steps, written as the spec states
them (for comparison with `suggest_price`). -/
def suggestSpec (hash : String → Int) (currentYear : Int)
    (make model : String) (year : Int) (r1 r2 : Int) : Int :=
  let base := 30000 + hash make.toLower % 5000 + hash model.toLower % 5000
  let age := currentYear - year
  let depreciation := age * 1500
  let raw := base - depreciation - r1
  if raw < 1500 then 1500 + r2 else raw

/-- The spec's reading of the make/model browse filters: case-insensitive
substring containment (for comparison with the `likeMatch` behaviour of the
code). -/
def substrCI (needle hay : String) : Bool :=
  (sufs (hay.toList.map Char.toLower)).any
    (fun t => (needle.toList.map Char.toLower).isPrefixOf t)

/-- Declarative form of the `make` filter stage: `c` survives
`applyMake _ o`. -/
def passesMake (o : Option String) (c : Car) : Bool :=
  match o with
  | none => true
  | some v =>
    if v.isEmpty then true else likeMatch (likePat v) c.make.toList

/-- Declarative form of the `model` filter stage. -/
def passesModel (o : Option String) (c : Car) : Bool :=
  match o with
  | none => true
  | some v =>
    if v.isEmpty then true else likeMatch (likePat v) c.model.toList

/-- Declarative form of the `year` filter stage (exact match of the parsed
year). -/
def passesYear (o : Option String) (c : Car) : Bool :=
  match o with
  | none => true
  | some v =>
    if v.isEmpty then true
    else
      match parseInt? v with
      | some y => c.year = y
      | none => false

/-- Declarative form of the `max_price` filter stage (inclusive upper
bound). -/
def passesPrice (o : Option String) (c : Car) : Bool :=
  match o with
  | none => true
  | some v =>
    if v.isEmpty then true
    else
      match parseFloat? v with
      | some p => c.price ≤ p
      | none => false

/-! ### Concrete sample data for witnesses and counterexamples -/

/-- The empty store. -/
def emptyStore : Store :=
  { users := [], cars := [] }

/-- A well-formed add/edit form. -/
def sampleForm : CarForm :=
  { make := "Toyota"
    model := "Corolla"
    year := "2020"
    mileage := "42000"
    price := "9000"
    description := "clean"
    image_url := "img"
    whatsapp_number := "123" }

/-- A listing owned by dealer 1. -/
def sampleCar : Car :=
  { id := 1
    make := "Toyota"
    model := "Corolla"
    year := 2020
    mileage := 42000
    price := 9000
    description := "clean"
    image_url := "img"
    whatsapp_number := "123"
    is_sold := false
    user_id := 1 }

/-- A sold listing owned by dealer 1. -/
def sampleCarSold : Car :=
  { id := 2
    make := "Honda"
    model := "Civic"
    year := 2019
    mileage := 90000
    price := 7000
    description := "ok"
    image_url := "img2"
    whatsapp_number := "123"
    is_sold := true
    user_id := 1 }

/-- A dealer account. -/
def sampleUser : User :=
  { id := 1
    username := "alice"
    password_hash := "h-secret"
    whatsapp_number := "123" }

/-- A store with one dealer and two of their listings. -/
def sampleStore : Store :=
  { users := [sampleUser], cars := [sampleCar, sampleCarSold] }

/-! ### Helper lemmas -/

/-- A successful primary-key lookup splits the table at the first row with
that key. -/
theorem find?_car_decomp {l : List Car} {cid : Nat} {car : Car}
    (h : l.find? (fun c => c.id = cid) = some car) :
    car.id = cid ∧ ∃ pre post, l = pre ++ car :: post ∧ ∀ x ∈ pre, x.id ≠ cid := by
  induction l with
  | nil => simp [List.find?] at h
  | cons c t ih =>
    by_cases hc : c.id = cid
    · rw [List.find?_cons_of_pos _ (by simpa using hc)] at h
      cases h
      exact ⟨hc, [], t, rfl, by simp⟩
    · rw [List.find?_cons_of_neg _ (by simpa using hc)] at h
      obtain ⟨h1, pre, post, heq, hpre⟩ := ih h
      refine ⟨h1, c :: pre, post, by rw [heq]; rfl, ?_⟩
      intro x hx
      rcases List.mem_cons.mp hx with rfl | hx
      · exact hc
      · exact hpre x hx

/-- Replacing the row with key `cid` rewrites exactly the first such row. -/
theorem setCar_decomp {pre post : List Car} {cid : Nat} {c : Car} (c' : Car)
    (hpre : ∀ x ∈ pre, x.id ≠ cid) (hc : c.id = cid) :
    setCar (pre ++ c :: post) cid c' = pre ++ c' :: post := by
  induction pre with
  | nil => simp [setCar, hc]
  | cons x t ih =>
    have hx : x.id ≠ cid := hpre x (by simp)
    have ih' := ih (fun y hy => hpre y (List.mem_cons_of_mem x hy))
    show (if x.id = cid then c' :: (t ++ c :: post)
      else x :: setCar (t ++ c :: post) cid c') = x :: (t ++ c' :: post)
    rw [if_neg hx, ih']

/-- Every row id is bounded by the table's maximal id. -/
theorem id_le_maxCarId {cars : List Car} {c : Car} (h : c ∈ cars) :
    c.id ≤ maxCarId cars := by
  induction cars with
  | nil => simp at h
  | cons x t ih =>
    rcases List.mem_cons.mp h with rfl | h
    · exact Nat.le_max_left _ _
    · exact Nat.le_trans (ih h) (Nat.le_max_right _ _)

/-- Looking up a key that every row of `pre` misses finds the head of the
remainder when it carries the key. -/
theorem find?_pre_cons {pre post : List Car} {cid : Nat} {c : Car}
    (hpre : ∀ x ∈ pre, x.id ≠ cid) (hc : c.id = cid) :
    (pre ++ c :: post).find? (fun x => x.id = cid) = some c := by
  induction pre with
  | nil => simp [List.find?, hc]
  | cons y t ih =>
    rw [List.cons_append, List.find?_cons_of_neg _ (by simpa using hpre y (by simp))]
    exact ih (fun x hx => hpre x (List.mem_cons_of_mem y hx))

/-- A fresh autoincrement id misses every existing row. -/
theorem old_id_ne_next {s : Store} {c : Car} (h : c ∈ s.cars) :
    c.id ≠ nextCarId s := by
  have := id_le_maxCarId h
  unfold nextCarId
  omega

/-! ### Claims -/

/-- C1 (counterexample): the claim asserts Forbidden regardless of listing
existence, but on a store with no listing with the requested id all three
operations answer NotFound, not Forbidden. -/
theorem c1_counterexample :
    ¬ (∀ (s : Store) (req cid : Nat) (f : CarForm),
        (∀ car, findCar? s cid = some car → car.user_id ≠ req) →
        edit_car s req cid f = (some Err.forbidden, s) ∧
        delete_car s req cid = (some Err.forbidden, s) ∧
        mark_sold s req cid = (some Err.forbidden, s)) := by
  intro h
  have hnone : ∀ car, findCar? emptyStore 1 = some car → car.user_id ≠ 1 := by
    intro car hc
    simp [findCar?, emptyStore, List.find?] at hc
  have := (h emptyStore 1 1 sampleForm hnone).1
  have hne : edit_car emptyStore 1 1 sampleForm = (some Err.notFound, emptyStore) := rfl
  rw [hne] at this
  simp at this

/-- C1 (amended): if a listing with the id exists and the requester is not
its owner, Update, Delete and ToggleSold each fail with Forbidden and leave
the store unchanged; if no listing with the id exists, they fail with
NotFound (store unchanged) instead. -/
theorem c1_owner_only (s : Store) (req cid : Nat) (f : CarForm) :
    (∀ car, findCar? s cid = some car → car.user_id ≠ req →
      edit_car s req cid f = (some Err.forbidden, s) ∧
      delete_car s req cid = (some Err.forbidden, s) ∧
      mark_sold s req cid = (some Err.forbidden, s)) ∧
    (findCar? s cid = none →
      edit_car s req cid f = (some Err.notFound, s) ∧
      delete_car s req cid = (some Err.notFound, s) ∧
      mark_sold s req cid = (some Err.notFound, s)) := by
  constructor
  · intro car hc hown
    refine ⟨?_, ?_, ?_⟩ <;> simp [edit_car, delete_car, mark_sold, hc, hown]
  · intro hc
    refine ⟨?_, ?_, ?_⟩ <;> simp [edit_car, delete_car, mark_sold, hc]

/-- C1 witness: dealer 2 cannot edit dealer 1's listing. -/
theorem c1_owner_only_witness :
    edit_car sampleStore 2 1 sampleForm = (some Err.forbidden, sampleStore) :=
  ((c1_owner_only sampleStore 2 1 sampleForm).1 sampleCar rfl (by decide)).1

/-- C2 (code bug): a Create whose year, mileage or price does not convert
raises an uncaught conversion error (`valueError`, an unhandled exception)
rather than the surfaced InvalidInput error; no listing is inserted either
way. -/
theorem c2_unparsable_create_raises :
    add_car sampleStore 1 { sampleForm with year := "20x0" } =
      (some Err.valueError, sampleStore) ∧
    add_car sampleStore 1 { sampleForm with mileage := "many" } =
      (some Err.valueError, sampleStore) ∧
    add_car sampleStore 1 { sampleForm with price := "cheap" } =
      (some Err.valueError, sampleStore) ∧
    Err.valueError ≠ Err.invalidInput :=
  ⟨rfl, rfl, rfl, by decide⟩

/-- C4: the code's price suggestion coincides, for any hash function,
current year and random draws in their ranges, with the spec's five
numbered steps. -/
theorem c4_suggest_follows_spec (hash : String → Int) (currentYear : Int)
    (make model : String) (year r1 r2 : Int)
    (h1 : 0 ≤ r1) (h2 : r1 ≤ 2000) (h3 : 0 ≤ r2) (h4 : r2 ≤ 1000) :
    suggest_price hash currentYear make model year r1 r2 =
      suggestSpec hash currentYear make model year r1 r2 := by
  simp only [suggest_price, suggestSpec]
  have hbase :
      30000 + (hash make.toLower % 5000 + hash model.toLower % 5000) -
        (currentYear - year) * 1500 - r1 =
      30000 + hash make.toLower % 5000 + hash model.toLower % 5000 -
        (currentYear - year) * 1500 - r1 := by ring
  rw [hbase]

/-- C4 witness at a concrete instantiation. -/
theorem c4_suggest_follows_spec_witness :
    suggest_price (fun _ => 7) 2026 ("Toyota") ("Corolla") 2020 100 50 =
      suggestSpec (fun _ => 7) 2026 ("Toyota") ("Corolla") 2020 100 50 :=
  c4_suggest_follows_spec (fun _ => 7) 2026 ("Toyota") ("Corolla") 2020 100 50
    (by decide) (by decide) (by decide) (by decide)

/-- C5: for random draws in their ranges the suggested price is at least
1500. -/
theorem c5_suggest_min (hash : String → Int) (currentYear : Int)
    (make model : String) (year r1 r2 : Int)
    (h1 : 0 ≤ r1) (h2 : r1 ≤ 2000) (h3 : 0 ≤ r2) (h4 : r2 ≤ 1000) :
    1500 ≤ suggest_price hash currentYear make model year r1 r2 := by
  simp only [suggest_price]
  split
  · omega
  · next h => exact le_of_not_lt h

/-- C5 witness: a deeply depreciated car still gets at least 1500. -/
theorem c5_suggest_min_witness :
    1500 ≤ suggest_price (fun _ => 0) 2026 ("Lada") ("Niva") 1970 2000 1000 :=
  c5_suggest_min (fun _ => 0) 2026 ("Lada") ("Niva") 1970 2000 1000
    (by decide) (by decide) (by decide) (by decide)

/-- C9: after a successful Create, GetPublic on the fresh id returns a
listing whose fields are exactly the submitted values after coercion (year
and mileage to integer, price to decimal), owned by the requester and not
sold. -/
theorem c9_roundtrip (s : Store) (req : Nat) (f : CarForm) (y m : Int) (p : ℚ)
    (hy : parseInt? f.year = some y) (hm : parseInt? f.mileage = some m)
    (hp : parseFloat? f.price = some p) :
    (add_car s req f).1 = none ∧
    car_detail (add_car s req f).2 (nextCarId s) = .ok
      { id := nextCarId s
        make := f.make
        model := f.model
        year := y
        mileage := m
        price := p
        description := f.description
        image_url := f.image_url
        whatsapp_number := f.whatsapp_number
        is_sold := false
        user_id := req } := by
  have hadd : add_car s req f =
      (none,
        { s with
          cars := s.cars ++
            [{ id := nextCarId s
               make := f.make
               model := f.model
               year := y
               mileage := m
               price := p
               description := f.description
               image_url := f.image_url
               whatsapp_number := f.whatsapp_number
               is_sold := false
               user_id := req }] }) := by
    simp [add_car, hy, hm, hp]
  refine ⟨by rw [hadd], ?_⟩
  rw [hadd]
  have hfind := @find?_pre_cons s.cars ([] : List Car) (nextCarId s)
    { id := nextCarId s
      make := f.make
      model := f.model
      year := y
      mileage := m
      price := p
      description := f.description
      image_url := f.image_url
      whatsapp_number := f.whatsapp_number
      is_sold := false
      user_id := req }
    (fun x hx => old_id_ne_next hx) rfl
  simp [car_detail, findCar?, hfind]

/-- C9 witness at a concrete store and form. -/
theorem c9_roundtrip_witness :
    car_detail (add_car sampleStore 1 sampleForm).2 (nextCarId sampleStore) = .ok
      { id := nextCarId sampleStore
        make := "Toyota"
        model := "Corolla"
        year := 2020
        mileage := 42000
        price := 9000
        description := "clean"
        image_url := "img"
        whatsapp_number := "123"
        is_sold := false
        user_id := 1 } :=
  (c9_roundtrip sampleStore 1 sampleForm 2020 42000 9000 rfl rfl rfl).2

/-- C10: an owner's ToggleSold flips exactly the `is_sold` flag of exactly
the addressed row (every other row and every other field untouched), and
two consecutive ToggleSold calls restore the store exactly. -/
theorem c10_toggle (s : Store) (req cid : Nat) (car : Car)
    (hc : findCar? s cid = some car) (hown : car.user_id = req) :
    mark_sold s req cid =
      (none, { s with cars := setCar s.cars cid { car with is_sold := !car.is_sold } }) ∧
    (∃ pre post, s.cars = pre ++ car :: post ∧ (∀ x ∈ pre, x.id ≠ cid) ∧
      setCar s.cars cid { car with is_sold := !car.is_sold } =
        pre ++ { car with is_sold := !car.is_sold } :: post) ∧
    mark_sold (mark_sold s req cid).2 req cid = (none, s) := by
  subst hown
  have hc' : s.cars.find? (fun c => c.id = cid) = some car := hc
  obtain ⟨hid, pre, post, heq, hpre⟩ := find?_car_decomp hc'
  have h1 : mark_sold s car.user_id cid =
      (none, { s with cars := setCar s.cars cid { car with is_sold := !car.is_sold } }) := by
    simp [mark_sold, hc]
  have hset : setCar s.cars cid { car with is_sold := !car.is_sold } =
      pre ++ { car with is_sold := !car.is_sold } :: post := by
    rw [heq]
    exact setCar_decomp _ hpre hid
  refine ⟨h1, ⟨pre, post, heq, hpre, hset⟩, ?_⟩
  rw [h1]
  have hfind2 : findCar? { s with cars := pre ++ { car with is_sold := !car.is_sold } :: post } cid
      = some { car with is_sold := !car.is_sold } :=
    find?_pre_cons hpre hid
  have hback : setCar (pre ++ { car with is_sold := !car.is_sold } :: post) cid car =
      pre ++ car :: post :=
    setCar_decomp car hpre hid
  have hcar :
      ({ id := car.id
         make := car.make
         model := car.model
         year := car.year
         mileage := car.mileage
         price := car.price
         description := car.description
         image_url := car.image_url
         whatsapp_number := car.whatsapp_number
         is_sold := !!car.is_sold
         user_id := car.user_id } : Car) = car := by
    rw [Bool.not_not]
  show mark_sold { s with cars := setCar s.cars cid { car with is_sold := !car.is_sold } }
    car.user_id cid = (none, s)
  rw [hset]
  simp only [mark_sold, hfind2]
  rw [if_neg (by simp)]
  rw [hcar, hback, ← heq]

/-- C10 witness: toggling the active sample listing marks it sold, and
toggling twice restores the sample store. -/
theorem c10_toggle_witness :
    mark_sold (mark_sold sampleStore 1 1).2 1 1 = (none, sampleStore) :=
  (c10_toggle sampleStore 1 1 sampleCar rfl rfl).2.2

/-- C8: a Register with a taken handle fails with DuplicateHandle and
creates no account; a Register with a fresh handle appends exactly one
account storing the salted hash of the password and the contact number. -/
theorem c8_signup_spec (s : Store) (genHash : String → String → String)
    (salt un pw wa : String) :
    ((∃ u ∈ s.users, u.username = un) →
      signup s genHash salt un pw wa = (some Err.duplicateHandle, s)) ∧
    ((¬ ∃ u ∈ s.users, u.username = un) →
      signup s genHash salt un pw wa =
        (none,
          { s with
            users := s.users ++
              [{ id := nextUserId s
                 username := un
                 password_hash := genHash salt pw
                 whatsapp_number := wa }] })) := by
  constructor
  · rintro ⟨u, hu, hun⟩
    cases hf : findUser? s un with
    | none =>
      have hf' : s.users.find? (fun x => x.username = un) = none := hf
      have := List.find?_eq_none.mp hf' u hu
      simp [hun] at this
    | some u' => simp [signup, hf]
  · intro h
    have hf : findUser? s un = none := by
      have : s.users.find? (fun x => x.username = un) = none := by
        rw [List.find?_eq_none]
        intro u hu hdec
        exact h ⟨u, hu, by simpa using hdec⟩
      exact this
    simp [signup, hf]

/-- C8 witness: a second signup with the taken handle fails and leaves the
store unchanged. -/
theorem c8_signup_spec_witness :
    signup sampleStore (fun a b => a ++ b) ("salt") ("alice") ("pw2") ("9") =
      (some Err.duplicateHandle, sampleStore) :=
  (c8_signup_spec sampleStore (fun a b => a ++ b) ("salt") ("alice") ("pw2") ("9")).1
    ⟨sampleUser, by simp [sampleStore], rfl⟩

/-- C7: with distinct handles, Authenticate succeeds, establishing the
session identity of exactly the matching dealer, iff some account has the
handle and its stored hash checks against the password; otherwise it fails
with InvalidCredentials. -/
theorem c7_login_spec (s : Store) (checkHash : String → String → Bool)
    (un pw : String) (hnames : (s.users.map User.username).Nodup) :
    (∀ uid, login s checkHash un pw = .ok uid ↔
      ∃ u ∈ s.users, u.username = un ∧ checkHash u.password_hash pw = true ∧ uid = u.id) ∧
    ((¬ ∃ u ∈ s.users, u.username = un ∧ checkHash u.password_hash pw = true) →
      login s checkHash un pw = .error .invalidCredentials) := by
  have hinj := List.inj_on_of_nodup_map hnames
  constructor
  · intro uid
    constructor
    · intro h
      cases hf : findUser? s un with
      | none => simp [login, hf] at h
      | some u =>
        have hf' : s.users.find? (fun x => x.username = un) = some u := hf
        have hu : u ∈ s.users := List.mem_of_find?_eq_some hf'
        have hun : u.username = un := by simpa using List.find?_some hf'
        by_cases hch : checkHash u.password_hash pw = true
        · have : uid = u.id := by simp [login, hf, hch] at h; omega
          exact ⟨u, hu, hun, hch, this⟩
        · simp [login, hf, hch] at h
    · rintro ⟨u, hu, hun, hch, rfl⟩
      cases hf : findUser? s un with
      | none =>
        have hf' : s.users.find? (fun x => x.username = un) = none := hf
        have := List.find?_eq_none.mp hf' u hu
        simp [hun] at this
      | some u' =>
        have hf' : s.users.find? (fun x => x.username = un) = some u' := hf
        have hu' : u' ∈ s.users := List.mem_of_find?_eq_some hf'
        have hun' : u'.username = un := by simpa using List.find?_some hf'
        have heq : u' = u := hinj hu' hu (by rw [hun', hun])
        subst heq
        simp [login, hf, hch]
  · intro hne
    cases hf : findUser? s un with
    | none => simp [login, hf]
    | some u =>
      have hf' : s.users.find? (fun x => x.username = un) = some u := hf
      have hu : u ∈ s.users := List.mem_of_find?_eq_some hf'
      have hun : u.username = un := by simpa using List.find?_some hf'
      have hch : ¬ checkHash u.password_hash pw = true :=
        fun hch => hne ⟨u, hu, hun, hch⟩
      simp [login, hf, hch]

/-- C7 witness: the sample dealer logs in when the hash check passes. -/
theorem c7_login_spec_witness :
    login sampleStore (fun _ _ => true) ("alice") ("secret") = .ok 1 :=
  ((c7_login_spec sampleStore (fun _ _ => true) ("alice") ("secret")
      (by decide)).1 1).mpr
    ⟨sampleUser, by simp [sampleStore], rfl, rfl, rfl⟩

/-- Surviving the make stage is membership plus the declarative make
condition. -/
theorem mem_applyMake {l : List Car} {o : Option String} {c : Car} :
    c ∈ applyMake l o ↔ c ∈ l ∧ passesMake o c = true := by
  cases o with
  | none => simp [applyMake, passesMake]
  | some v =>
    by_cases he : v.isEmpty <;>
      simp [applyMake, passesMake, he, List.mem_filter]

/-- Surviving the model stage is membership plus the declarative model
condition. -/
theorem mem_applyModel {l : List Car} {o : Option String} {c : Car} :
    c ∈ applyModel l o ↔ c ∈ l ∧ passesModel o c = true := by
  cases o with
  | none => simp [applyModel, passesModel]
  | some v =>
    by_cases he : v.isEmpty <;>
      simp [applyModel, passesModel, he, List.mem_filter]

/-- Surviving a successful year stage is membership plus the declarative
year condition. -/
theorem mem_applyYear {l l' : List Car} {o : Option String}
    (h : applyYear l o = .ok l') (c : Car) :
    c ∈ l' ↔ c ∈ l ∧ passesYear o c = true := by
  cases o with
  | none =>
    simp only [applyYear, Except.ok.injEq] at h
    subst h
    simp [passesYear]
  | some v =>
    by_cases he : v.isEmpty
    · simp only [applyYear, he, if_true] at h
      cases h
      simp [passesYear, he]
    · cases hp : parseInt? v with
      | none => simp [applyYear, he, hp] at h
      | some y =>
        simp [applyYear, he, hp] at h
        subst h
        simp [passesYear, he, hp, List.mem_filter]

/-- Surviving a successful price stage is membership plus the declarative
price condition. -/
theorem mem_applyPrice {l l' : List Car} {o : Option String}
    (h : applyPrice l o = .ok l') (c : Car) :
    c ∈ l' ↔ c ∈ l ∧ passesPrice o c = true := by
  cases o with
  | none =>
    simp only [applyPrice, Except.ok.injEq] at h
    subst h
    simp [passesPrice]
  | some v =>
    by_cases he : v.isEmpty
    · simp only [applyPrice, he, if_true] at h
      cases h
      simp [passesPrice, he]
    · cases hp : parseFloat? v with
      | none => simp [applyPrice, he, hp] at h
      | some p =>
        simp [applyPrice, he, hp] at h
        subst h
        simp [passesPrice, he, hp, List.mem_filter]

/-- The make stage preserves any pairwise relation. -/
theorem pairwise_applyMake {R : Car → Car → Prop} {l : List Car}
    {o : Option String} (h : l.Pairwise R) : (applyMake l o).Pairwise R := by
  cases o with
  | none => exact h
  | some v =>
    by_cases he : v.isEmpty <;> simp [applyMake, he]
    · exact h
    · exact h.filter _

/-- The model stage preserves any pairwise relation. -/
theorem pairwise_applyModel {R : Car → Car → Prop} {l : List Car}
    {o : Option String} (h : l.Pairwise R) : (applyModel l o).Pairwise R := by
  cases o with
  | none => exact h
  | some v =>
    by_cases he : v.isEmpty <;> simp [applyModel, he]
    · exact h
    · exact h.filter _

/-- A successful year stage preserves any pairwise relation. -/
theorem pairwise_applyYear {R : Car → Car → Prop} {l l' : List Car}
    {o : Option String} (hok : applyYear l o = .ok l') (h : l.Pairwise R) :
    l'.Pairwise R := by
  cases o with
  | none =>
    simp only [applyYear, Except.ok.injEq] at hok
    exact hok ▸ h
  | some v =>
    by_cases he : v.isEmpty
    · simp only [applyYear, he, if_true] at hok
      cases hok
      exact h
    · cases hp : parseInt? v with
      | none => simp [applyYear, he, hp] at hok
      | some y =>
        simp [applyYear, he, hp] at hok
        subst hok
        exact h.filter _

/-- A successful price stage preserves any pairwise relation. -/
theorem pairwise_applyPrice {R : Car → Car → Prop} {l l' : List Car}
    {o : Option String} (hok : applyPrice l o = .ok l') (h : l.Pairwise R) :
    l'.Pairwise R := by
  cases o with
  | none =>
    simp only [applyPrice, Except.ok.injEq] at hok
    exact hok ▸ h
  | some v =>
    by_cases he : v.isEmpty
    · simp only [applyPrice, he, if_true] at hok
      cases hok
      exact h
    · cases hp : parseFloat? v with
      | none => simp [applyPrice, he, hp] at hok
      | some p =>
        simp [applyPrice, he, hp] at hok
        subst hok
        exact h.filter _

/-- C3 (counterexample): the claim reads the make filter as case-insensitive
substring match, but the code builds an SQL `LIKE` pattern, so a `%` in the
filter value acts as a wildcard: the filter value containing `%` is not a
substring of the listing's make, yet the listing is returned. -/
theorem c3_counterexample :
    browse_cars { users := [], cars := [{ sampleCar with make := "aXb" }] }
      { make := some ("a%b"), model := none, year := none, max_price := none } =
      .ok [{ sampleCar with make := "aXb" }] ∧
    substrCI ("a%b") ("aXb") = false :=
  ⟨rfl, by decide⟩

/-- C3 (amended): for every store and filter combination that raises no
conversion error, Browse returns exactly the unsold listings that pass
every supplied filter — make and model as case-insensitive SQL LIKE
patterns wrapped in wildcards (plain substring match when the value has no
`%` or `_`), year as exact match, maxPrice as inclusive upper bound —
unsupplied (or empty) filters passing all records, ordered descending by
listing id. -/
theorem c3_browse_spec (s : Store) (q : BrowseQuery) (l : List Car)
    (hl : browse_cars s q = .ok l)
    (hids : (s.cars.map Car.id).Nodup) :
    (∀ c, c ∈ l ↔
      c ∈ s.cars ∧ c.is_sold = false ∧ passesMake q.make c = true ∧
      passesModel q.model c = true ∧ passesYear q.year c = true ∧
      passesPrice q.max_price c = true) ∧
    l.Pairwise (fun a b => b.id < a.id) := by
  unfold browse_cars at hl
  split at hl
  · simp at hl
  · rename_i l3 hy
    split at hl
    · simp at hl
    · rename_i l4 hp
      simp only [Except.ok.injEq] at hl
      subst hl
      constructor
      · intro c
        rw [List.mem_insertionSort, mem_applyPrice hp c, mem_applyYear hy c,
          mem_applyModel, mem_applyMake, List.mem_filter]
        simp [and_assoc]
      · have hpne : s.cars.Pairwise (fun a b => a.id ≠ b.id) :=
          List.pairwise_map.mp hids
        have h4 : l4.Pairwise (fun a b => a.id ≠ b.id) :=
          pairwise_applyPrice hp (pairwise_applyYear hy
            (pairwise_applyModel (pairwise_applyMake (hpne.filter _))))
        have hsorted : (List.insertionSort newestLe l4).Pairwise newestLe :=
          List.sorted_insertionSort newestLe l4
        have hne : (List.insertionSort newestLe l4).Pairwise
            (fun a b => a.id ≠ b.id) := by
          refine (List.Perm.pairwise_iff ?_
            (List.perm_insertionSort newestLe l4)).mpr h4
          exact fun h he => h he.symm
        exact (hsorted.and hne).imp
          (fun h => lt_of_le_of_ne h.1 (Ne.symm h.2))

/-- C3 witness: on the sample store a make filter returns only the active
matching listing, in descending id order. -/
theorem c3_browse_spec_witness :
    List.Pairwise (fun a b : Car => b.id < a.id) [sampleCar] :=
  (c3_browse_spec sampleStore
    { make := some ("toy"), model := none, year := none, max_price := none }
    [sampleCar] rfl (by decide)).2

/-- C6: the dealer dashboard lists exactly the dealer's own cars, every
active listing before every sold one and larger ids first within each
group, and the public dealer page renders the same list for the resolved
handle. -/
theorem c6_dealer_order (s : Store) (uid : Nat) (handle : String)
    (hids : (s.cars.map Car.id).Nodup) :
    (∀ c, c ∈ dashboard s uid ↔ c ∈ s.cars ∧ c.user_id = uid) ∧
    (dashboard s uid).Pairwise (fun a b =>
      (a.is_sold = false ∧ b.is_sold = true) ∨
      (a.is_sold = b.is_sold ∧ b.id < a.id)) ∧
    (∀ d, findUser? s handle = some d →
      dealer_page s handle = .ok (dashboard s d.id)) := by
  refine ⟨?_, ?_, ?_⟩
  · intro c
    simp [dashboard, List.mem_filter]
  · have hpne : s.cars.Pairwise (fun a b => a.id ≠ b.id) :=
      List.pairwise_map.mp hids
    have hf : (s.cars.filter (fun c => c.user_id = uid)).Pairwise
        (fun a b => a.id ≠ b.id) := hpne.filter _
    have hsorted : (dashboard s uid).Pairwise dashLe :=
      List.sorted_insertionSort dashLe _
    have hne : (dashboard s uid).Pairwise (fun a b => a.id ≠ b.id) := by
      refine (List.Perm.pairwise_iff ?_
        (List.perm_insertionSort dashLe _)).mpr hf
      exact fun h he => h he.symm
    refine (hsorted.and hne).imp (fun h => ?_)
    rcases h with ⟨hd | hd, hn⟩
    · exact Or.inl hd
    · exact Or.inr ⟨hd.1, lt_of_le_of_ne hd.2 (Ne.symm hn)⟩
  · intro d hd
    unfold dealer_page
    rw [hd]
    rfl

/-- C6 witness: the public page of the sample dealer shows exactly their
dashboard. -/
theorem c6_dealer_order_witness :
    dealer_page sampleStore ("alice") = .ok (dashboard sampleStore 1) :=
  (c6_dealer_order sampleStore 1 ("alice") (by decide)).2.2 sampleUser rfl

end CarMarketplace
